import Mathlib

/-!
Shallow embedding of `Recap-photo-processing.py`, a batch pipeline that
converts exported photo pairs (BeReal-style), stamps capture metadata and
composites each pair into one "picture-in-picture" image.

Modelling conventions:
* path and string values are lists of characters (`List Char`);
* the filesystem is a finite set of existing paths together with a map
  giving the embedded metadata of each file;
* the fallible image/metadata library calls (PIL, piexif, iptcinfo3) are
  driven by an explicit fault environment, with a failure forced whenever
  the file a call reads does not exist;
* a Python exception is an `Except.error` carrying the state and log trace
  accumulated up to the raise point; a `try/except` boundary is a `match`
  that turns the error into a log event and continues.
-/

namespace Recap

/-- Decimal digit list of a natural number: the model of Python's
`str(int)` as used by the f-string in `get_unique_filename`.  The
auxiliary function recurses on a fuel argument so that it is structurally
recursive (and hence reducible by the kernel); fuel `n + 1` always
suffices for the number `n`. -/
def natDigitsAux : Nat → Nat → List Char
  | 0, _ => []
  | fuel + 1, n =>
    if n < 10 then [Nat.digitChar n]
    else natDigitsAux fuel (n / 10) ++ [Nat.digitChar (n % 10)]

/-- Decimal rendering of a natural number. -/
def natDigits (n : Nat) : List Char := natDigitsAux (n + 1) n

/-- Numeric value of a digit list, used to show `natDigits` is injective. -/
def digitsVal (ds : List Char) : Nat := ds.foldl (fun a c => 10 * a + (c.toNat - 48)) 0

theorem digitChar_toNat_sub (d : Nat) (h : d < 10) : (Nat.digitChar d).toNat - 48 = d := by
  revert h
  revert d
  decide

theorem digitsVal_append_digit (ds : List Char) (c : Char) :
    digitsVal (ds ++ [c]) = 10 * digitsVal ds + (c.toNat - 48) := by
  simp [digitsVal, List.foldl_append]

theorem natDigitsAux_val (fuel : Nat) : ∀ n : Nat, n < fuel →
    digitsVal (natDigitsAux fuel n) = n ∧ natDigitsAux fuel n ≠ [] := by
  induction fuel with
  | zero => intro n hn; omega
  | succ fuel ih =>
    intro n hn
    by_cases h10 : n < 10
    · simp only [natDigitsAux, if_pos h10]
      refine ⟨?_, by simp⟩
      simp [digitsVal, digitChar_toNat_sub n h10]
    · have hdiv : n / 10 < n := Nat.div_lt_self (by omega) (by omega)
      have hrec := ih (n / 10) (by omega)
      simp only [natDigitsAux, if_neg h10]
      refine ⟨?_, by simp⟩
      rw [digitsVal_append_digit, hrec.1, digitChar_toNat_sub (n % 10) (Nat.mod_lt _ (by omega))]
      omega

theorem digitsVal_natDigits (n : Nat) : digitsVal (natDigits n) = n :=
  (natDigitsAux_val (n + 1) n (by omega)).1

theorem natDigits_injective : Function.Injective natDigits := by
  intro m n h
  have := digitsVal_natDigits m
  rw [h, digitsVal_natDigits] at this
  omega

/-- A filesystem path: the directory it lives in and its final name
component.  Two paths are the same file exactly when both components
agree. -/
structure FsPath where
  parent : List Char
  name : List Char
deriving DecidableEq, Repr

/-- Helper for Python's `PurePath.stem` / `PurePath.suffix`: split a name
at its last dot, the suffix starting with that dot; a name with no dot
has an empty suffix.  (The top-level wrapper below handles the leading-dot
special case.) -/
def splitExtAux : List Char → List Char × List Char
  | [] => ([], [])
  | c :: cs =>
    let p := splitExtAux cs
    if p.2 = [] then (if c = '.' then ([], c :: cs) else (c :: cs, []))
    else (c :: p.1, p.2)

theorem splitExtAux_append (cs : List Char) :
    (splitExtAux cs).1 ++ (splitExtAux cs).2 = cs := by
  induction cs with
  | nil => rfl
  | cons c cs ih =>
    simp only [splitExtAux]
    split
    · split
      · next h => simp [h]
      · simp
    · simpa using ih

/-- Python's `PurePath(name).stem`: the name without its extension; a
leading dot does not start an extension. -/
def pathStem (name : List Char) : List Char :=
  if (splitExtAux name).1 = [] then name else (splitExtAux name).1

/-- Python's `PurePath(name).suffix`: the extension including its dot, or
empty when there is none (or when the only dot is the leading one). -/
def pathSuffix (name : List Char) : List Char :=
  if (splitExtAux name).1 = [] then [] else (splitExtAux name).2

theorem pathStem_append_pathSuffix (name : List Char) :
    pathStem name ++ pathSuffix name = name := by
  unfold pathStem pathSuffix
  split
  · simp
  · exact splitExtAux_append name

/-- Python's `Path.with_suffix`: replace the extension of the final name
component. -/
def withSuffix (p : FsPath) (suf : List Char) : FsPath :=
  ⟨p.parent, pathStem p.name ++ suf⟩

/-- Candidate paths probed by `get_unique_filename`: candidate `0` is the
requested path itself, candidate `k + 1` is
`path.with_name (f"{path.stem}_{k + 1}{path.suffix}")`. -/
def candAt (path : FsPath) : Nat → FsPath
  | 0 => path
  | k + 1 =>
    ⟨path.parent, pathStem path.name ++ ('_' :: natDigits (k + 1)) ++ pathSuffix path.name⟩

theorem candAt_succ_inj (path : FsPath) {j k : Nat}
    (h : candAt path (j + 1) = candAt path (k + 1)) : j = k := by
  have hname : pathStem path.name ++ ('_' :: natDigits (j + 1)) ++ pathSuffix path.name =
      pathStem path.name ++ ('_' :: natDigits (k + 1)) ++ pathSuffix path.name := by
    have := congrArg FsPath.name h
    simpa [candAt] using this
  rw [List.append_assoc, List.append_assoc] at hname
  have h1 := List.append_cancel_left hname
  have hc : ('_' :: (natDigits (j + 1) ++ pathSuffix path.name) : List Char) =
      '_' :: (natDigits (k + 1) ++ pathSuffix path.name) := by simpa using h1
  have h3 : natDigits (j + 1) = natDigits (k + 1) :=
    List.append_cancel_right (List.cons_injective hc)
  have := natDigits_injective h3
  omega

theorem candAt_zero_ne_succ (path : FsPath) (k : Nat) :
    candAt path 0 ≠ candAt path (k + 1) := by
  intro h
  have hname : path.name =
      pathStem path.name ++ ('_' :: natDigits (k + 1)) ++ pathSuffix path.name := by
    have := congrArg FsPath.name h
    simpa [candAt] using this
  have hl1 := congrArg List.length (pathStem_append_pathSuffix path.name)
  have hl2 := congrArg List.length hname
  simp only [List.length_append, List.length_cons] at hl1 hl2
  omega

theorem candAt_injective (path : FsPath) : Function.Injective (candAt path) := by
  intro j k h
  match j, k with
  | 0, 0 => rfl
  | 0, k + 1 => exact absurd h (candAt_zero_ne_succ path k)
  | j + 1, 0 => exact absurd h.symm (candAt_zero_ne_succ path j)
  | j + 1, k + 1 => exact congrArg (· + 1) (candAt_succ_inj path h)

/-- Among the first `fs.card + 1` candidates some path is unused: the
candidates are pairwise distinct, so they cannot all lie in `fs`. -/
theorem cand_exists_not_mem (fs : Finset FsPath) (path : FsPath) :
    ∃ k, k ≤ fs.card ∧ candAt path k ∉ fs := by
  by_contra h
  push_neg at h
  have hmaps : ∀ k ∈ Finset.range (fs.card + 1), candAt path k ∈ fs := by
    intro k hk
    exact h k (by simpa using Nat.lt_succ_iff.mp (Finset.mem_range.mp hk))
  have hinj : (↑(Finset.range (fs.card + 1)) : Set Nat).InjOn (candAt path) :=
    fun a _ b _ hab => candAt_injective path hab
  have := Finset.card_le_card_of_injOn (candAt path) hmaps hinj
  simp [Finset.card_range] at this

/-- Body of the `while unique_path.exists()` loop of
`get_unique_filename`, with the current candidate index as the loop
counter and an explicit fuel argument.  `cand_exists_not_mem` shows that
fuel `fs.card + 1` never runs out, so the fuel-exhausted branch (which
just returns the current candidate) is unreachable from
`get_unique_filename`. -/
def uniqueLoop (fs : Finset FsPath) (path : FsPath) : Nat → Nat → FsPath
  | 0, counter => candAt path counter
  | fuel + 1, counter =>
    if candAt path counter ∈ fs then uniqueLoop fs path fuel (counter + 1)
    else candAt path counter

/-- Model of `get_unique_filename`: probe `path`, `stem_1.ext`,
`stem_2.ext`, ... until a path is found that does not exist. -/
def get_unique_filename (fs : Finset FsPath) (path : FsPath) : FsPath :=
  uniqueLoop fs path (fs.card + 1) 0

theorem uniqueLoop_spec (fs : Finset FsPath) (path : FsPath) :
    ∀ fuel k, (∃ j, j < fuel ∧ candAt path (k + j) ∉ fs) →
    ∃ m, uniqueLoop fs path fuel k = candAt path (k + m) ∧ candAt path (k + m) ∉ fs ∧
      ∀ i, i < m → candAt path (k + i) ∈ fs := by
  intro fuel
  induction fuel with
  | zero => intro k ⟨j, hj, _⟩; omega
  | succ fuel ih =>
    intro k ⟨j, hj, hnot⟩
    by_cases hmem : candAt path k ∈ fs
    · have hj0 : j ≠ 0 := by
        intro h0; rw [h0] at hnot; simp at hnot; exact hnot hmem
      obtain ⟨j', rfl⟩ : ∃ j', j = j' + 1 := ⟨j - 1, by omega⟩
      obtain ⟨m', hm1, hm2, hm3⟩ := ih (k + 1) ⟨j', by omega, by
        have : k + 1 + j' = k + (j' + 1) := by omega
        rw [this]; exact hnot⟩
      refine ⟨m' + 1, ?_, ?_, ?_⟩
      · simp only [uniqueLoop, if_pos hmem]
        rw [hm1]; congr 1; omega
      · have : k + (m' + 1) = k + 1 + m' := by omega
        rw [this]; exact hm2
      · intro i hi
        match i with
        | 0 => simpa using hmem
        | i + 1 =>
          have : k + (i + 1) = k + 1 + i := by omega
          rw [this]; exact hm3 i (by omega)
    · exact ⟨0, by simp [uniqueLoop, hmem], by simpa using hmem, by omega⟩

/-- Characterisation of `get_unique_filename`: it returns the first
candidate that does not exist. -/
theorem get_unique_filename_spec (fs : Finset FsPath) (path : FsPath) :
    ∃ m, get_unique_filename fs path = candAt path m ∧ candAt path m ∉ fs ∧
      ∀ i, i < m → candAt path i ∈ fs := by
  obtain ⟨k, hk, hnot⟩ := cand_exists_not_mem fs path
  obtain ⟨m, h1, h2, h3⟩ := uniqueLoop_spec fs path (fs.card + 1) 0
    ⟨k, by omega, by simpa using hnot⟩
  exact ⟨m, by simpa using h1, by simpa using h2, by simpa using h3⟩

theorem get_unique_filename_not_mem (fs : Finset FsPath) (path : FsPath) :
    get_unique_filename fs path ∉ fs := by
  obtain ⟨m, h1, h2, _⟩ := get_unique_filename_spec fs path
  rw [h1]; exact h2

theorem get_unique_filename_of_not_mem (fs : Finset FsPath) (path : FsPath)
    (h : path ∉ fs) : get_unique_filename fs path = path := by
  obtain ⟨m, h1, _, h3⟩ := get_unique_filename_spec fs path
  match m with
  | 0 => simpa [candAt] using h1
  | m + 1 => exact absurd (by simpa [candAt] using h3 0 (by omega)) h

/-- Claim C3: for a path that does not exist `get_unique_filename` returns
it unchanged; for a path that does exist it returns a path that does not
exist, equal to the input except for a numeric counter inserted between
the stem and the extension, and the counter chosen is the lowest unused
one starting at 1. -/
theorem c3_unique_filename (fs : Finset FsPath) (p : FsPath) :
    (p ∉ fs → get_unique_filename fs p = p) ∧
    (p ∈ fs → get_unique_filename fs p ∉ fs ∧
      ∃ k, 1 ≤ k ∧ get_unique_filename fs p = candAt p k ∧
        (candAt p k).parent = p.parent ∧
        (candAt p k).name = pathStem p.name ++ ('_' :: natDigits k) ++ pathSuffix p.name ∧
        p.name = pathStem p.name ++ pathSuffix p.name ∧
        ∀ j, 1 ≤ j → j < k → candAt p j ∈ fs) := by
  constructor
  · exact get_unique_filename_of_not_mem fs p
  · intro hmem
    refine ⟨get_unique_filename_not_mem fs p, ?_⟩
    obtain ⟨m, h1, h2, h3⟩ := get_unique_filename_spec fs p
    match m with
    | 0 => exact absurd hmem (by simpa [candAt] using h2)
    | m + 1 =>
      exact ⟨m + 1, by omega, h1, rfl, rfl, (pathStem_append_pathSuffix p.name).symm,
        fun j _ hj => h3 j hj⟩

/-- Sample paths used by concrete witnesses. -/
def pWitness : FsPath := ⟨"Photos/post".toList, "img.jpg".toList⟩

/-- Witness for C3: on the filesystem that contains exactly `img.jpg`,
the claim instantiates to concrete facts about `img.jpg` itself. -/
theorem c3_unique_filename_witness :
    (pWitness ∉ (∅ : Finset FsPath) ∧
      get_unique_filename (∅ : Finset FsPath) pWitness = pWitness) ∧
    (pWitness ∈ ({pWitness} : Finset FsPath) ∧
      get_unique_filename ({pWitness} : Finset FsPath) pWitness ∉
        ({pWitness} : Finset FsPath)) := by
  refine ⟨⟨by decide, (c3_unique_filename (∅ : Finset FsPath) pWitness).1 (by decide)⟩,
    ⟨by decide, ((c3_unique_filename ({pWitness} : Finset FsPath) pWitness).2 (by decide)).1⟩⟩

/-- A pixel with red, green, blue and alpha channels. -/
structure Pix where
  r : Nat
  g : Nat
  b : Nat
  a : Nat
deriving DecidableEq, Repr

/-- An in-memory image: dimensions plus a (total) pixel map. -/
structure Img where
  width : Nat
  height : Nat
  px : Nat → Nat → Pix

/-- Resampling filters of the image library; the pipeline only ever uses
`LANCZOS`. -/
inductive Resample where
  | LANCZOS
deriving DecidableEq, Repr

/-- Model of `Image.resize`: the output has exactly the requested
dimensions.  The pixel content of the library's resampling kernel is not
modelled precisely (the claims depend only on the dimensions and on which
source image the pixels come from); a simple coordinate scaling stands in
for it. -/
def resize (img : Img) (w h : Nat) (_filter : Resample) : Img :=
  ⟨w, h, fun x y => img.px (x * img.width / w) (y * img.height / h)⟩

/-- A single-channel ("L" mode) image, used as the opacity mask. -/
structure MaskImg where
  width : Nat
  height : Nat
  px : Nat → Nat → Nat

/-- Membership in the rounded rectangle with corners `(0,0)`-`(w,h)` and
the given corner radius: inside the bounding box and, within each corner
square, inside the quarter circle around that corner's centre. -/
def inRoundedRect (w h radius x y : Nat) : Bool :=
  decide ((x : Int) ≤ w ∧ (y : Int) ≤ h ∧
    ((x : Int) < radius ∧ (y : Int) < radius →
      ((x : Int) - radius) ^ 2 + ((y : Int) - radius) ^ 2 ≤ (radius : Int) ^ 2) ∧
    ((w : Int) - radius < x ∧ (y : Int) < radius →
      ((x : Int) - ((w : Int) - radius)) ^ 2 + ((y : Int) - radius) ^ 2 ≤ (radius : Int) ^ 2) ∧
    ((x : Int) < radius ∧ (h : Int) - radius < y →
      ((x : Int) - radius) ^ 2 + ((y : Int) - ((h : Int) - radius)) ^ 2 ≤ (radius : Int) ^ 2) ∧
    ((w : Int) - radius < x ∧ (h : Int) - radius < y →
      ((x : Int) - ((w : Int) - radius)) ^ 2 + ((y : Int) - ((h : Int) - radius)) ^ 2 ≤
        (radius : Int) ^ 2))

/-- Model of `ImageDraw.rounded_rectangle([0, 0, *size], radius, fill)`
drawn onto a mask image. -/
def rounded_rectangle (m : MaskImg) (radius fill : Nat) : MaskImg :=
  ⟨m.width, m.height,
    fun x y => if inRoundedRect m.width m.height radius x y then fill else m.px x y⟩

/-- Model of `Image.putalpha`: the mask becomes the alpha channel. -/
def putalpha (img : Img) (m : MaskImg) : Img :=
  ⟨img.width, img.height, fun x y => { img.px x y with a := m.px x y }⟩

/-- Alpha blending of one channel, as performed by `Image.paste` with a
mask: mask value 255 copies the source, mask value 0 keeps the
destination. -/
def blend (dst src alpha : Nat) : Nat := (dst * (255 - alpha) + src * alpha) / 255

theorem blend_zero (dst src : Nat) : blend dst src 0 = dst := by
  simp [blend]

theorem blend_full (dst src : Nat) : blend dst src 255 = src := by
  simp [blend]

/-- Model of `Image.paste(src, (ox, oy), mask)`: inside the paste box the
destination is blended with the source under the mask's alpha channel;
outside it is untouched.  The destination's dimensions never change. -/
def paste (dst src : Img) (ox oy : Nat) (mask : Img) : Img :=
  ⟨dst.width, dst.height, fun x y =>
    if ox ≤ x ∧ x < ox + src.width ∧ oy ≤ y ∧ y < oy + src.height then
      let al := (mask.px (x - ox) (y - oy)).a
      let sp := src.px (x - ox) (y - oy)
      let dp := dst.px x y
      ⟨blend dp.r sp.r al, blend dp.g sp.g al, blend dp.b sp.b al, dp.a⟩
    else dst.px x y⟩

/-- Model of `combine_images` (its pixel transformations; the file-level
open/save shell is modelled separately by `combineFiles`): resize the
secondary to a third of the primary's dimensions, build a rounded-corner
opacity mask, apply it as the secondary's alpha channel and paste the
secondary onto the primary at offset (50, 50) using itself as the paste
mask. -/
def combine_images (primary_img : Img) (secondary_img0 : Img) : Img :=
  let secondary_img :=
    resize secondary_img0 (primary_img.width / 3) (primary_img.height / 3) Resample.LANCZOS
  let mask :=
    rounded_rectangle ⟨secondary_img.width, secondary_img.height, fun _ _ => 0⟩ 30 255
  let secondary_img := putalpha secondary_img mask
  paste primary_img secondary_img 50 50 secondary_img

/-- Claim C4: the composite keeps the primary's pixel dimensions; the
secondary is resized to exactly `(width / 3, height / 3)` with the
`LANCZOS` filter and pasted at offset (50, 50) under a rounded-rectangle
mask of radius 30 of the resized dimensions, so that pixels outside the
paste box, and pixels inside it where the mask is transparent, are the
primary's original pixels, while pixels where the mask is opaque come
from the resized secondary. -/
theorem c4_combine_images (p s : Img) :
    (combine_images p s).width = p.width ∧
    (combine_images p s).height = p.height ∧
    (∀ x y, (x < 50 ∨ 50 + p.width / 3 ≤ x ∨ y < 50 ∨ 50 + p.height / 3 ≤ y) →
      (combine_images p s).px x y = p.px x y) ∧
    (∀ x y, 50 ≤ x → x < 50 + p.width / 3 → 50 ≤ y → y < 50 + p.height / 3 →
      inRoundedRect (p.width / 3) (p.height / 3) 30 (x - 50) (y - 50) = false →
      (combine_images p s).px x y = p.px x y) ∧
    (∀ x y, 50 ≤ x → x < 50 + p.width / 3 → 50 ≤ y → y < 50 + p.height / 3 →
      inRoundedRect (p.width / 3) (p.height / 3) 30 (x - 50) (y - 50) = true →
      ((combine_images p s).px x y).r =
        ((resize s (p.width / 3) (p.height / 3) Resample.LANCZOS).px (x - 50) (y - 50)).r ∧
      ((combine_images p s).px x y).g =
        ((resize s (p.width / 3) (p.height / 3) Resample.LANCZOS).px (x - 50) (y - 50)).g ∧
      ((combine_images p s).px x y).b =
        ((resize s (p.width / 3) (p.height / 3) Resample.LANCZOS).px (x - 50) (y - 50)).b) := by
  refine ⟨rfl, rfl, ?_, ?_, ?_⟩
  · intro x y hout
    simp only [combine_images, paste, resize, putalpha, rounded_rectangle]
    rw [if_neg]
    omega
  · intro x y h1 h2 h3 h4 hmask
    simp only [combine_images, paste, resize, putalpha, rounded_rectangle]
    rw [if_pos (by exact ⟨h1, h2, h3, h4⟩)]
    simp only [hmask, Bool.false_eq_true, if_false, blend_zero]
  · intro x y h1 h2 h3 h4 hmask
    simp only [combine_images, paste, resize, putalpha, rounded_rectangle]
    rw [if_pos (by exact ⟨h1, h2, h3, h4⟩)]
    simp only [hmask, if_true, blend_full]
    exact ⟨trivial, trivial, trivial⟩

/-- Concrete primary image for the C4 witness. -/
def imgPrimary : Img := ⟨300, 300, fun _ _ => ⟨200, 10, 10, 255⟩⟩

/-- Concrete secondary image for the C4 witness. -/
def imgSecondary : Img := ⟨90, 90, fun _ _ => ⟨10, 10, 200, 255⟩⟩

/-- Witness for C4 at a 300x300 primary: a pixel outside the paste box is
untouched and a pixel under the opaque part of the mask carries the
resized secondary's red channel. -/
theorem c4_combine_images_witness :
    (combine_images imgPrimary imgSecondary).width = imgPrimary.width ∧
    (combine_images imgPrimary imgSecondary).px 10 10 = imgPrimary.px 10 10 ∧
    ((combine_images imgPrimary imgSecondary).px 100 100).r =
      ((resize imgSecondary (imgPrimary.width / 3) (imgPrimary.height / 3)
        Resample.LANCZOS).px 50 50).r := by
  refine ⟨(c4_combine_images imgPrimary imgSecondary).1, ?_, ?_⟩
  · exact (c4_combine_images imgPrimary imgSecondary).2.2.1 10 10 (Or.inl (by decide))
  · exact ((c4_combine_images imgPrimary imgSecondary).2.2.2.2 100 100 (by decide) (by decide)
      (by decide) (by decide) (by decide)).1

/-- Embedded metadata of one file: the EXIF capture timestamp
(`DateTimeOriginal`), the EXIF GPS latitude/longitude pair, and the IPTC
caption.  The numeric GPS values are modelled as integers; only their
identity matters to the claims. -/
structure MetaD where
  dto : Option (List Char)
  gps : Option (Int × Int)
  caption : Option (List Char)
deriving DecidableEq, Repr

/-- Metadata of a file that carries none. -/
def emptyMeta : MetaD := ⟨none, none, none⟩

/-- The filesystem: the set of existing paths and the embedded metadata
of each file (meaningful only for existing files). -/
structure Fsys where
  files : Finset FsPath
  meta : FsPath → MetaD

/-- Outcome of an image-library save call: success, a failure before the
target file is created, or a failure that leaves a partially written file
at the target path (the library opens the target for writing before
encoding, so an encode error can leave such a file; the source never
removes it). -/
inductive SaveOut where
  | ok
  | errClean
  | errLeft
deriving DecidableEq, Repr

/-- Fault environment: which library calls fail, beyond the failures that
are forced because a file being read does not exist. -/
structure Faults where
  pilOpenFault : FsPath → Bool
  pilSave : FsPath → SaveOut
  exifFault : FsPath → Bool
  iptcFault : FsPath → Bool
  copyFault : FsPath → Bool
  moveFault : FsPath → Bool
  unlinkFault : FsPath → Bool

/-- A parsed timestamp, the model of a `datetime.datetime` value. -/
structure DT where
  year : Nat
  month : Nat
  day : Nat
  hour : Nat
  minute : Nat
  second : Nat
  micro : Nat
deriving DecidableEq, Repr

/-- Zero-padded decimal rendering, as `strftime` produces. -/
def padDigits (w n : Nat) : List Char :=
  List.replicate (w - (natDigits n).length) '0' ++ natDigits n

/-- Model of `strftime("%Y:%m:%d %H:%M:%S")`. -/
def strftimeColon (t : DT) : List Char :=
  padDigits 4 t.year ++ (':' :: padDigits 2 t.month) ++ (':' :: padDigits 2 t.day) ++
    (' ' :: padDigits 2 t.hour) ++ (':' :: padDigits 2 t.minute) ++ (':' :: padDigits 2 t.second)

/-- Model of `strftime("%Y%m%d_%H%M%S")`, used for combined-output names. -/
def strftimeCompact (t : DT) : List Char :=
  padDigits 4 t.year ++ padDigits 2 t.month ++ padDigits 2 t.day ++
    ('_' :: padDigits 2 t.hour) ++ padDigits 2 t.minute ++ padDigits 2 t.second

/-- Manifest GPS location. -/
structure Location where
  latitude : Int
  longitude : Int
deriving DecidableEq, Repr

/-- Observable events of a run: the log lines of the source plus ghost
markers that record which operations were attempted.  `entryDone i true`
is the per-entry boundary's `logger.error("Error processing entry ...")`;
`entryDone i false` is a ghost marker recording that entry `i`'s body ran
to completion. -/
inductive Ev where
  | jsonErrLog
  | metaCall (p : FsPath) (location : Option Location)
  | exifWrite (p : FsPath)
  | exifErrLog (p : FsPath)
  | iptcSave (p : FsPath)
  | iptcErrLog (p : FsPath)
  | convertOk (src dst : FsPath)
  | convertErrLog (src : FsPath)
  | moveOp (src dst : FsPath)
  | copyOp (src dst : FsPath)
  | combineTry (primary secondary : FsPath)
  | combineOk (out : FsPath)
  | entryDone (i : Nat) (errored : Bool)
  | purgeRun (dir : List Char)
deriving DecidableEq, Repr

/-- The `~`-suffixed backup file the IPTC library leaves next to a file
it saves. -/
def backupPath (p : FsPath) : FsPath := ⟨p.parent, p.name ++ ['~']⟩

/-- First `try` block of `update_metadata`: `piexif.load`, set
`DateTimeOriginal`, replace the GPS IFD when a location is given, and
`piexif.insert` the container back.  The whole EXIF container of the file
is re-serialised, so fields that are not set (such as pre-existing GPS
data when `location` is absent) are written back unchanged.  Any failure
(including the forced one when the file does not exist) is caught and
logged. -/
def exifStep (env : Faults) (fs : Fsys) (image_path : FsPath) (datetime_taken : DT)
    (location : Option Location) : Fsys × Ev :=
  if image_path ∈ fs.files ∧ env.exifFault image_path = false then
    let m0 := fs.meta image_path
    let m1 : MetaD :=
      { m0 with
        dto := some (strftimeColon datetime_taken),
        gps := match location with
          | some loc => some (loc.latitude, loc.longitude)
          | none => m0.gps }
    ({ fs with meta := Function.update fs.meta image_path m1 }, Ev.exifWrite image_path)
  else (fs, Ev.exifErrLog image_path)

/-- Second `try` block of `update_metadata`: `IPTCInfo(..., force=True)`,
set the caption when one is given, and `iptc.save()`.  A successful save
leaves a `~` backup file beside the saved file.  Any failure (including
the forced one when the file does not exist) is caught and logged. -/
def iptcStep (env : Faults) (fs : Fsys) (image_path : FsPath)
    (caption : Option (List Char)) : Fsys × Ev :=
  if image_path ∈ fs.files ∧ env.iptcFault image_path = false then
    let m0 := fs.meta image_path
    let m1 : MetaD :=
      match caption with
      | some c => { m0 with caption := some c }
      | none => m0
    ({ files := insert (backupPath image_path) fs.files,
       meta := Function.update fs.meta image_path m1 }, Ev.iptcSave image_path)
  else (fs, Ev.iptcErrLog image_path)

/-- Model of `update_metadata`: the two independently fallible metadata
writes on the same file, EXIF first, IPTC second, each inside its own
exception boundary.  The `metaCall` event is a ghost marker recording the
invocation and its `location` argument. -/
def update_metadata (env : Faults) (fs : Fsys) (image_path : FsPath) (datetime_taken : DT)
    (caption : Option (List Char)) (location : Option Location) : Fsys × List Ev :=
  let s1 := exifStep env fs image_path datetime_taken location
  let s2 := iptcStep env s1.1 image_path caption
  (s2.1, [Ev.metaCall image_path location, s1.2, s2.2])

theorem exifStep_files (env : Faults) (fs : Fsys) (p : FsPath) (t : DT)
    (loc : Option Location) : (exifStep env fs p t loc).1.files = fs.files := by
  unfold exifStep
  split <;> rfl

theorem exifStep_ev (env : Faults) (fs : Fsys) (p : FsPath) (t : DT) (loc : Option Location) :
    (exifStep env fs p t loc).2 = Ev.exifWrite p ∨ (exifStep env fs p t loc).2 = Ev.exifErrLog p := by
  unfold exifStep
  split
  · exact Or.inl rfl
  · exact Or.inr rfl

theorem iptcStep_ev (env : Faults) (fs : Fsys) (p : FsPath) (cap : Option (List Char)) :
    (iptcStep env fs p cap).2 = Ev.iptcSave p ∨ (iptcStep env fs p cap).2 = Ev.iptcErrLog p := by
  unfold iptcStep
  split
  · exact Or.inl rfl
  · exact Or.inr rfl

theorem iptcStep_ev_iff (env : Faults) (fs : Fsys) (p : FsPath) (cap : Option (List Char)) :
    (iptcStep env fs p cap).2 = Ev.iptcSave p ↔ (p ∈ fs.files ∧ env.iptcFault p = false) := by
  unfold iptcStep
  split
  · next h => simp [h]
  · next h => simp [h]

/-- Helper: the trace of one `update_metadata` call, in call order. -/
theorem update_metadata_trace (env : Faults) (fs : Fsys) (p : FsPath) (t : DT)
    (cap : Option (List Char)) (loc : Option Location) :
    (update_metadata env fs p t cap loc).2 =
      [Ev.metaCall p loc, (exifStep env fs p t loc).2,
        (iptcStep env (exifStep env fs p t loc).1 p cap).2] := rfl

/-- Helper: on a path that does not exist both metadata writes fail, are
logged, and the filesystem is unchanged. -/
theorem update_metadata_not_mem (env : Faults) (fs : Fsys) (p : FsPath) (t : DT)
    (cap : Option (List Char)) (loc : Option Location) (h : p ∉ fs.files) :
    update_metadata env fs p t cap loc =
      (fs, [Ev.metaCall p loc, Ev.exifErrLog p, Ev.iptcErrLog p]) := by
  have e1 : exifStep env fs p t loc = (fs, Ev.exifErrLog p) := by
    unfold exifStep
    rw [if_neg (by simp [h])]
  have e2 : iptcStep env fs p cap = (fs, Ev.iptcErrLog p) := by
    unfold iptcStep
    rw [if_neg (by simp [h])]
  simp [update_metadata, e1, e2]

/-- Claim C5: every `update_metadata` call attempts exactly two writes to
the same file, the capture-metadata write first and the caption write
second, each inside its own exception boundary; the outcome of the second
write is determined independently of the first block's outcome, so a
failure of the first block never prevents the second. -/
theorem c5_metadata_two_writes (env : Faults) (fs : Fsys) (p : FsPath) (t : DT)
    (cap : Option (List Char)) (loc : Option Location) :
    ∃ e1 e2, (update_metadata env fs p t cap loc).2 = [Ev.metaCall p loc, e1, e2] ∧
      (e1 = Ev.exifWrite p ∨ e1 = Ev.exifErrLog p) ∧
      (e2 = Ev.iptcSave p ∨ e2 = Ev.iptcErrLog p) ∧
      (e2 = Ev.iptcSave p ↔ (p ∈ fs.files ∧ env.iptcFault p = false)) := by
  refine ⟨(exifStep env fs p t loc).2, (iptcStep env (exifStep env fs p t loc).1 p cap).2,
    update_metadata_trace env fs p t cap loc, exifStep_ev env fs p t loc, iptcStep_ev _ _ _ _, ?_⟩
  rw [iptcStep_ev_iff, exifStep_files]

/-- Witness for C5 on a concrete call whose EXIF write is forced to fail
(the file does not exist): the caption write is still attempted. -/
theorem c5_metadata_two_writes_witness :
    ∃ e1 e2,
      (update_metadata
        ⟨fun _ => false, fun _ => SaveOut.ok, fun _ => false, fun _ => false,
          fun _ => false, fun _ => false, fun _ => false⟩
        ⟨∅, fun _ => emptyMeta⟩ pWitness ⟨2021, 5, 4, 3, 2, 1, 0⟩ none none).2 =
          [Ev.metaCall pWitness none, e1, e2] ∧
      (e1 = Ev.exifWrite pWitness ∨ e1 = Ev.exifErrLog pWitness) ∧
      (e2 = Ev.iptcSave pWitness ∨ e2 = Ev.iptcErrLog pWitness) ∧
      (e2 = Ev.iptcSave pWitness ↔
        (pWitness ∈ (∅ : Finset FsPath) ∧ false = false)) := by
  exact c5_metadata_two_writes _ _ pWitness _ none none

/-- Helper: the caption write never touches the timestamp or GPS fields. -/
theorem iptcStep_meta_dto_gps (env : Faults) (fs : Fsys) (p : FsPath)
    (cap : Option (List Char)) :
    ((iptcStep env fs p cap).1.meta p).dto = (fs.meta p).dto ∧
    ((iptcStep env fs p cap).1.meta p).gps = (fs.meta p).gps := by
  unfold iptcStep
  split
  · cases cap <;> simp [Function.update]
  · exact ⟨rfl, rfl⟩

/-- Claim C6 (amended): writing capture metadata to an existing file and
reading it back yields the timestamp formatted `YYYY:MM:DD HH:MM:SS` and,
when a location was passed, exactly its latitude/longitude; when the
location is omitted the GPS fields are not modified (in particular a file
without GPS fields still has none). -/
theorem c6_metadata_roundtrip (env : Faults) (fs : Fsys) (p : FsPath) (t : DT)
    (cap : Option (List Char)) (loc : Option Location)
    (hmem : p ∈ fs.files) (hex : env.exifFault p = false) :
    ((update_metadata env fs p t cap loc).1.meta p).dto = some (strftimeColon t) ∧
    (∀ l, loc = some l →
      ((update_metadata env fs p t cap loc).1.meta p).gps = some (l.latitude, l.longitude)) ∧
    (loc = none → ((update_metadata env fs p t cap loc).1.meta p).gps = (fs.meta p).gps) := by
  have hreduce : (update_metadata env fs p t cap loc).1 =
      (iptcStep env (exifStep env fs p t loc).1 p cap).1 := rfl
  rw [hreduce]
  cases loc with
  | none =>
    have hiptc := iptcStep_meta_dto_gps env (exifStep env fs p t none).1 p cap
    have e1 : (exifStep env fs p t none).1.meta p =
        { fs.meta p with dto := some (strftimeColon t) } := by
      unfold exifStep
      rw [if_pos ⟨hmem, hex⟩]
      simp [Function.update]
    refine ⟨?_, ?_, ?_⟩
    · rw [hiptc.1, e1]
    · intro l hl
      exact Option.noConfusion hl
    · intro _
      rw [hiptc.2, e1]
  | some l =>
    have hiptc := iptcStep_meta_dto_gps env (exifStep env fs p t (some l)).1 p cap
    have e1 : (exifStep env fs p t (some l)).1.meta p =
        { fs.meta p with
          dto := some (strftimeColon t)
          gps := some (l.latitude, l.longitude) } := by
      unfold exifStep
      rw [if_pos ⟨hmem, hex⟩]
      simp [Function.update]
    refine ⟨?_, ?_, ?_⟩
    · rw [hiptc.1, e1]
    · intro l' hl'
      cases hl'
      rw [hiptc.2, e1]
    · intro h0
      exact Option.noConfusion h0

/-- Witness for C6 on a concrete fault-free filesystem holding one file:
writing with a location reads back that location, and writing without one
leaves the (absent) GPS fields absent. -/
theorem c6_metadata_roundtrip_witness :
    (((update_metadata
        ⟨fun _ => false, fun _ => SaveOut.ok, fun _ => false, fun _ => false,
          fun _ => false, fun _ => false, fun _ => false⟩
        ⟨{pWitness}, fun _ => emptyMeta⟩ pWitness ⟨2021, 5, 4, 3, 2, 1, 0⟩ none
        (some ⟨7, 9⟩)).1.meta pWitness).gps = some (7, 9)) ∧
    (((update_metadata
        ⟨fun _ => false, fun _ => SaveOut.ok, fun _ => false, fun _ => false,
          fun _ => false, fun _ => false, fun _ => false⟩
        ⟨{pWitness}, fun _ => emptyMeta⟩ pWitness ⟨2021, 5, 4, 3, 2, 1, 0⟩ none
        none).1.meta pWitness).gps = (emptyMeta : MetaD).gps) := by
  constructor
  · exact (c6_metadata_roundtrip _ _ pWitness ⟨2021, 5, 4, 3, 2, 1, 0⟩ none (some ⟨7, 9⟩)
      (by decide) rfl).2.1 ⟨7, 9⟩ rfl
  · exact (c6_metadata_roundtrip _ _ pWitness ⟨2021, 5, 4, 3, 2, 1, 0⟩ none none
      (by decide) rfl).2.2 rfl

/-- Fault-free environment used by concrete runs. -/
def noFaults : Faults :=
  ⟨fun _ => false, fun _ => SaveOut.ok, fun _ => false, fun _ => false,
    fun _ => false, fun _ => false, fun _ => false⟩

/-- A filesystem whose single file already carries GPS metadata. -/
def fsWithGps : Fsys :=
  ⟨{pWitness}, fun q => if q = pWitness then ⟨none, some (7, 9), none⟩ else emptyMeta⟩

/-- Counterexample to C6 as stated: calling the metadata writer with the
location omitted on a file that already carries GPS fields leaves GPS
fields set in the file's capture-metadata container (the whole EXIF
container is re-serialised and written back), contradicting the claim
that omitting the location leaves no GPS fields set. -/
theorem c6_counterexample :
    ((update_metadata noFaults fsWithGps pWitness ⟨2021, 5, 4, 3, 2, 1, 0⟩ none
      none).1.meta pWitness).gps ≠ none := by decide

/-- Model of `convert_webp_to_jpg`: open the source, re-encode it as JPEG
to the sibling `.jpg` path, return that path; on any failure log and
return `none`.  An `errLeft` save outcome leaves a partially written file
at the target path — the source takes no cleanup action on failure.  A
fresh JPEG carries no metadata (the re-encode does not copy EXIF/IPTC
data). -/
def convert_webp_to_jpg (env : Faults) (fs : Fsys) (image_path : FsPath) :
    Fsys × List Ev × Option FsPath :=
  let jpg_path := withSuffix image_path (".jpg".toList)
  if image_path ∈ fs.files ∧ env.pilOpenFault image_path = false then
    match env.pilSave jpg_path with
    | SaveOut.ok =>
      ({ files := insert jpg_path fs.files
         meta := Function.update fs.meta jpg_path emptyMeta },
       [Ev.convertOk image_path jpg_path], some jpg_path)
    | SaveOut.errClean => (fs, [Ev.convertErrLog image_path], none)
    | SaveOut.errLeft =>
      ({ fs with files := insert jpg_path fs.files }, [Ev.convertErrLog image_path], none)
  else (fs, [Ev.convertErrLog image_path], none)

/-- Claim C7 (amended): the converter returns a failure indication (not a
path) exactly when opening/decoding or saving fails, and logs the error;
a failure while opening or decoding the source produces no output file,
and so does an encode failure that aborts before the target is created —
but the code does not remove a partially written target, so an encode
failure that leaves one behind is not cleaned up. -/
theorem c7_convert_failure (env : Faults) (fs : Fsys) (p : FsPath) :
    ((convert_webp_to_jpg env fs p).2.2 = none ↔
      ¬(p ∈ fs.files ∧ env.pilOpenFault p = false ∧
        env.pilSave (withSuffix p (".jpg".toList)) = SaveOut.ok)) ∧
    ((convert_webp_to_jpg env fs p).2.2 = none →
      (convert_webp_to_jpg env fs p).2.1 = [Ev.convertErrLog p]) ∧
    (¬(p ∈ fs.files ∧ env.pilOpenFault p = false) →
      (convert_webp_to_jpg env fs p).1 = fs) ∧
    (env.pilSave (withSuffix p (".jpg".toList)) = SaveOut.errClean →
      (convert_webp_to_jpg env fs p).1 = fs) := by
  by_cases hopen : p ∈ fs.files ∧ env.pilOpenFault p = false
  · unfold convert_webp_to_jpg
    rw [if_pos hopen]
    cases hs : env.pilSave (withSuffix p (".jpg".toList)) <;> simp [hopen.1, hopen.2]
  · unfold convert_webp_to_jpg
    rw [if_neg hopen]
    exact ⟨iff_of_true rfl (fun h => hopen ⟨h.1, h.2.1⟩), fun _ => rfl, fun _ => rfl,
      fun _ => rfl⟩

/-- The input-folder `.webp` source used by concrete runs. -/
def wSample : FsPath := ⟨"Photos/post".toList, "a.webp".toList⟩

/-- Environment in which every save call fails after creating the target
file. -/
def envErrLeft : Faults := { noFaults with pilSave := fun _ => SaveOut.errLeft }

/-- Environment in which every image open/decode call fails. -/
def envOpenFault : Faults := { noFaults with pilOpenFault := fun _ => true }

/-- A filesystem holding just the `.webp` source. -/
def fsWebp : Fsys := ⟨{wSample}, fun _ => emptyMeta⟩

/-- Counterexample to C7 as stated: when the encode fails after the
library has begun writing the target, the converter returns failure but
an output file does exist at the target path, contradicting the claim
that no output file is produced on every decode/encode failure. -/
theorem c7_counterexample :
    (convert_webp_to_jpg envErrLeft fsWebp wSample).2.2 = none ∧
    withSuffix wSample (".jpg".toList) ∈ (convert_webp_to_jpg envErrLeft fsWebp wSample).1.files := by
  decide

/-- Witness for C7 (amended) at concrete inputs: an encode failure still
returns failure and logs, and a decode failure leaves the filesystem
unchanged. -/
theorem c7_convert_failure_witness :
    (convert_webp_to_jpg envErrLeft fsWebp wSample).2.1 = [Ev.convertErrLog wSample] ∧
    (convert_webp_to_jpg envOpenFault fsWebp wSample).1 = fsWebp := by
  constructor
  · exact (c7_convert_failure envErrLeft fsWebp wSample).2.1 (by decide)
  · exact (c7_convert_failure envOpenFault fsWebp wSample).2.2.1 (by decide)

/-- The fixed input folder `Photos/post/`. -/
def PHOTO_FOLDER : List Char := "Photos/post".toList

/-- The fixed per-image output folder `Photos/post/__processed`. -/
def OUTPUT_FOLDER : List Char := "Photos/post/__processed".toList

/-- The fixed combined-output folder `Photos/post/__combined`. -/
def COMBINED_FOLDER : List Char := "Photos/post/__combined".toList

/-- Decimal digit of a character, or `none`. -/
def digit? (c : Char) : Option Nat :=
  if 48 ≤ c.toNat ∧ c.toNat ≤ 57 then some (c.toNat - 48) else none

/-- Helper for `%f` followed by the literal `Z` at the end of the input:
one to six digits, then `Z`, then nothing. -/
def microAux : List Char → Nat → Nat → Option Nat
  | [], _, _ => none
  | c :: cs, cnt, acc =>
    if c = 'Z' then (if cs = [] ∧ 1 ≤ cnt ∧ cnt ≤ 6 then some acc else none)
    else
      match digit? c with
      | some d => microAux cs (cnt + 1) (acc * 10 + d)
      | none => none

/-- A two-digit decimal field. -/
def digits2 (a b : Char) : Option Nat := do
  let x ← digit? a
  let y ← digit? b
  pure (x * 10 + y)

/-- A four-digit decimal field. -/
def digits4 (a b c d : Char) : Option Nat := do
  let x ← digits2 a b
  let y ← digits2 c d
  pure (x * 100 + y)

/-- Range checks `strptime` applies to the parsed fields. -/
def mkDT (y mo da ho mi se mic : Nat) : Option DT :=
  if 1 ≤ mo ∧ mo ≤ 12 ∧ 1 ≤ da ∧ da ≤ 31 ∧ ho ≤ 23 ∧ mi ≤ 59 ∧ se ≤ 61 then
    some ⟨y, mo, da, ho, mi, se, mic⟩
  else none

/-- Model of `datetime.strptime(s, "%Y-%m-%dT%H:%M:%S.%fZ")`: four year
digits, dashed month and day, literal `T`, colon-separated time, a dot,
fractional digits and a final `Z`, with the ranges `strptime` accepts;
anything else fails (a `ValueError` caught by the per-entry boundary). -/
def parseTakenAt (s : List Char) : Option DT :=
  match s with
  | y1 :: y2 :: y3 :: y4 :: c1 :: m1 :: m2 :: c2 :: d1 :: d2 :: c3 ::
      h1 :: h2 :: c4 :: n1 :: n2 :: c5 :: s1 :: s2 :: c6 :: rest =>
    if c1 = '-' ∧ c2 = '-' ∧ c3 = 'T' ∧ c4 = ':' ∧ c5 = ':' ∧ c6 = '.' then do
      let y ← digits4 y1 y2 y3 y4
      let mo ← digits2 m1 m2
      let da ← digits2 d1 d2
      let ho ← digits2 h1 h2
      let mi ← digits2 n1 n2
      let se ← digits2 s1 s2
      let mic ← microAux rest 0 0
      mkDT y mo da ho mi se mic
    else none
  | _ => none

/-- Model of `Path(p).name`: the component after the last `/`. -/
def baseName (cs : List Char) : List Char :=
  cs.foldl (fun acc c => if c = '/' then [] else acc ++ [c]) []

/-- One manifest record.  `Option` on the path/timestamp fields models a
missing manifest key (whose access raises `KeyError`); `caption` and
`location` are read with `.get`, so their absence is not an error. -/
structure Entry where
  primaryPath : Option (List Char)
  secondaryPath : Option (List Char)
  takenAt : Option (List Char)
  caption : Option (List Char)
  location : Option Location
deriving DecidableEq, Repr

/-- One iteration of the `for image_path in [primary, secondary]` loop: a
missing source is silently skipped; a `.webp` source is converted (and on
success moved to a re-derived unique `.jpg` destination); any other
source is copied verbatim with its metadata (`shutil.copy2`); then the
metadata writer runs on the destination (with no location argument).  A
raised exception (`Except.error`) carries the state and trace accumulated
so far and propagates to the per-entry boundary. -/
def processImage (env : Faults) (fs : Fsys) (image_path : FsPath) (taken_at : DT)
    (caption : Option (List Char)) : Except (Fsys × List Ev) (Fsys × List Ev) :=
  if image_path ∈ fs.files then
    let new_path := get_unique_filename fs.files ⟨OUTPUT_FOLDER, image_path.name⟩
    if pathSuffix image_path.name = ".webp".toList then
      match convert_webp_to_jpg env fs image_path with
      | (fs1, tr1, some converted) =>
        let new_path2 := get_unique_filename fs1.files (withSuffix new_path (".jpg".toList))
        if env.moveFault converted = true then Except.error (fs1, tr1)
        else
          let fs2 : Fsys :=
            { files := insert new_path2 (fs1.files.erase converted)
              meta := Function.update fs1.meta new_path2 (fs1.meta converted) }
          let sm := update_metadata env fs2 new_path2 taken_at caption none
          Except.ok (sm.1, tr1 ++ [Ev.moveOp converted new_path2] ++ sm.2)
      | (fs1, tr1, none) =>
        let sm := update_metadata env fs1 new_path taken_at caption none
        Except.ok (sm.1, tr1 ++ sm.2)
    else
      if env.copyFault image_path = true then Except.error (fs, [])
      else
        let fs1 : Fsys :=
          { files := insert new_path fs.files
            meta := Function.update fs.meta new_path (fs.meta image_path) }
        let sm := update_metadata env fs1 new_path taken_at caption none
        Except.ok (sm.1, Ev.copyOp image_path new_path :: sm.2)
  else Except.ok (fs, [])

/-- Model of the file-level shell of `combine_images`: open both source
images (raising if either is missing or undecodable), compose them (the
pixel work is `combine_images` above) and save the JPEG to `out`.  No
exception is caught here; errors propagate to the per-entry boundary. -/
def combineFiles (env : Faults) (fs : Fsys) (primary secondary out : FsPath) :
    Except (Fsys × List Ev) (Fsys × List Ev) :=
  if primary ∈ fs.files ∧ env.pilOpenFault primary = false then
    if secondary ∈ fs.files ∧ env.pilOpenFault secondary = false then
      match env.pilSave out with
      | SaveOut.ok =>
        Except.ok ({ files := insert out fs.files
                     meta := Function.update fs.meta out emptyMeta },
          [Ev.combineTry primary secondary, Ev.combineOk out])
      | SaveOut.errClean => Except.error (fs, [Ev.combineTry primary secondary])
      | SaveOut.errLeft =>
        Except.error ({ fs with files := insert out fs.files },
          [Ev.combineTry primary secondary])
    else Except.error (fs, [Ev.combineTry primary secondary])
  else Except.error (fs, [Ev.combineTry primary secondary])

/-- Body of the per-entry `try` block: resolve both source paths under
the input folder, parse the timestamp, process both source images, then
compose the original source paths into a fresh unique combined path and
stamp it. -/
def entryBody (env : Faults) (fs : Fsys) (entry : Entry) :
    Except (Fsys × List Ev) (Fsys × List Ev) :=
  match entry.primaryPath, entry.secondaryPath, entry.takenAt with
  | some pp, some sp, some ts =>
    match parseTakenAt ts with
    | none => Except.error (fs, [])
    | some taken_at =>
      let primary : FsPath := ⟨PHOTO_FOLDER, baseName pp⟩
      let secondary : FsPath := ⟨PHOTO_FOLDER, baseName sp⟩
      match processImage env fs primary taken_at entry.caption with
      | Except.error r => Except.error r
      | Except.ok (fs1, tr1) =>
        match processImage env fs1 secondary taken_at entry.caption with
        | Except.error r2 => Except.error (r2.1, tr1 ++ r2.2)
        | Except.ok (fs2, tr2) =>
          let combined_path := get_unique_filename fs2.files
            ⟨COMBINED_FOLDER, strftimeCompact taken_at ++ "_combined.jpg".toList⟩
          match combineFiles env fs2 primary secondary combined_path with
          | Except.error r3 => Except.error (r3.1, tr1 ++ tr2 ++ r3.2)
          | Except.ok (fs3, tr3) =>
            let sm := update_metadata env fs3 combined_path taken_at entry.caption none
            Except.ok (sm.1, tr1 ++ tr2 ++ tr3 ++ sm.2)
  | _, _, _ => Except.error (fs, [])

/-- The per-entry error boundary: any exception raised by the body is
caught and logged (`entryDone i true` is the `logger.error` line;
`entryDone i false` is a ghost marker for a clean iteration), and
processing continues. -/
def processEntry (env : Faults) (fs : Fsys) (i : Nat) (entry : Entry) :
    Fsys × List Ev × Bool :=
  match entryBody env fs entry with
  | Except.ok r => (r.1, r.2 ++ [Ev.entryDone i false], false)
  | Except.error r => (r.1, r.2 ++ [Ev.entryDone i true], true)

/-- The manifest loop: entries are processed strictly in order, each
within its own boundary. -/
def runEntries (env : Faults) : Fsys → Nat → List Entry → Fsys × List Ev
  | fs, _, [] => (fs, [])
  | fs, i, e :: es =>
    let r1 := processEntry env fs i e
    let r2 := runEntries env r1.1 (i + 1) es
    (r2.1, r1.2.1 ++ r2.2)

/-- Test for the backup-file naming convention `*~`. -/
def isBackupName (cs : List Char) : Bool := decide (cs.getLast? = some '~')

/-- Model of `remove_backup_files`: delete every `*~` file of the
directory, keeping the ones whose deletion fails (each such failure is
logged and does not stop the others).  The `purgeRun` event marks the
invocation. -/
def remove_backup_files (env : Faults) (fs : Fsys) (directory : List Char) : Fsys × List Ev :=
  ({ fs with
      files := fs.files.filter (fun p =>
          ¬(p.parent = directory ∧ isBackupName p.name = true ∧
            env.unlinkFault p = false)) },
   [Ev.purgeRun directory])

/-- Outcome of loading `posts.json`: a parsed entry list, a
`FileNotFoundError` (the only exception the source catches), or any other
load failure — an unreadable file, invalid JSON or a non-iterable
top-level value — which the source does not catch. -/
inductive LoadRes where
  | ok (entries : List Entry)
  | fileNotFound
  | otherErr

/-- Result of a whole run: final filesystem, trace, and whether the run
died of an uncaught exception. -/
structure RunOut where
  fs : Fsys
  trace : List Ev
  crashed : Bool

/-- Model of `process_files`: a missing manifest is logged and the run
returns at once; any other manifest failure propagates uncaught (nothing
logged, nothing processed, no cleanup); otherwise every entry is
processed in its own boundary and both output folders are purged of
backup files afterwards. -/
def process_files (env : Faults) (load : LoadRes) (fs : Fsys) : RunOut :=
  match load with
  | LoadRes.fileNotFound => ⟨fs, [Ev.jsonErrLog], false⟩
  | LoadRes.otherErr => ⟨fs, [], true⟩
  | LoadRes.ok entries =>
    let r1 := runEntries env fs 0 entries
    let r2 := remove_backup_files env r1.1 OUTPUT_FOLDER
    let r3 := remove_backup_files env r2.1 COMBINED_FOLDER
    ⟨r3.1, r1.2 ++ r2.2 ++ r3.2, false⟩

/-- Helper: every entry iteration leaves its boundary marker (the error
log line, or the ghost completion marker) in its trace. -/
theorem processEntry_entryDone (env : Faults) (fs : Fsys) (i : Nat) (e : Entry) :
    Ev.entryDone i (processEntry env fs i e).2.2 ∈ (processEntry env fs i e).2.1 := by
  unfold processEntry
  cases entryBody env fs e <;> simp

/-- Helper: the manifest loop leaves a boundary marker for every entry. -/
theorem runEntries_entryDone (env : Faults) :
    ∀ (es : List Entry) (fs : Fsys) (i0 i : Nat), i < es.length →
    ∃ b, Ev.entryDone (i0 + i) b ∈ (runEntries env fs i0 es).2 := by
  intro es
  induction es with
  | nil =>
    intro fs i0 i h
    simp at h
  | cons e es ih =>
    intro fs i0 i h
    match i with
    | 0 =>
      refine ⟨(processEntry env fs i0 e).2.2, ?_⟩
      simp only [runEntries]
      exact List.mem_append_left _ (by simpa using processEntry_entryDone env fs i0 e)
    | i + 1 =>
      obtain ⟨b, hb⟩ := ih (processEntry env fs i0 e).1 (i0 + 1) i (by simpa using h)
      refine ⟨b, ?_⟩
      simp only [runEntries]
      refine List.mem_append_right _ ?_
      have harith : i0 + (i + 1) = i0 + 1 + i := by omega
      rw [harith]
      exact hb

/-- Claim C1: with a loaded manifest the run never crashes (every
per-entry failure is caught by the entry boundary), every entry of the
manifest is processed (each leaves its boundary marker, an error log or
the ghost completion marker), and the backup purge of both output
folders runs after all entries. -/
theorem c1_entry_isolation (env : Faults) (entries : List Entry) (fs : Fsys) :
    (process_files env (LoadRes.ok entries) fs).crashed = false ∧
    Ev.purgeRun OUTPUT_FOLDER ∈ (process_files env (LoadRes.ok entries) fs).trace ∧
    Ev.purgeRun COMBINED_FOLDER ∈ (process_files env (LoadRes.ok entries) fs).trace ∧
    ∀ i, i < entries.length →
      ∃ b, Ev.entryDone i b ∈ (process_files env (LoadRes.ok entries) fs).trace := by
  refine ⟨rfl, ?_, ?_, ?_⟩
  · simp [process_files, remove_backup_files]
  · simp [process_files, remove_backup_files]
  · intro i h
    obtain ⟨b, hb⟩ := runEntries_entryDone env entries fs 0 i h
    refine ⟨b, ?_⟩
    simp only [process_files]
    exact List.mem_append_left _ (List.mem_append_left _ (by simpa using hb))

/-- The empty filesystem used by concrete runs. -/
def fsNil : Fsys := ⟨∅, fun _ => emptyMeta⟩

/-- An entry whose timestamp does not match the expected format: its
processing raises inside the boundary. -/
def entryBadTs : Entry :=
  ⟨some ("a.jpg".toList), some ("b.jpg".toList), some ("nonsense".toList), none, none⟩

/-- Witness for C1 on a one-entry manifest whose timestamp is malformed:
the failure is caught, the entry leaves its marker and both purges run. -/
theorem c1_entry_isolation_witness :
    (process_files noFaults (LoadRes.ok [entryBadTs]) fsNil).crashed = false ∧
    Ev.purgeRun OUTPUT_FOLDER ∈ (process_files noFaults (LoadRes.ok [entryBadTs]) fsNil).trace ∧
    Ev.purgeRun COMBINED_FOLDER ∈ (process_files noFaults (LoadRes.ok [entryBadTs]) fsNil).trace ∧
    ∃ b, Ev.entryDone 0 b ∈ (process_files noFaults (LoadRes.ok [entryBadTs]) fsNil).trace := by
  exact ⟨(c1_entry_isolation noFaults [entryBadTs] fsNil).1,
    (c1_entry_isolation noFaults [entryBadTs] fsNil).2.1,
    (c1_entry_isolation noFaults [entryBadTs] fsNil).2.2.1,
    (c1_entry_isolation noFaults [entryBadTs] fsNil).2.2.2 0 (by decide)⟩

/-- Claim C2 (amended): a missing manifest file is logged and the run
returns at once with no entries processed and no cleanup; any other
manifest load failure also aborts the whole run before any entry, but as
an uncaught exception with nothing logged; with a loaded manifest the
batch always runs to completion including both cleanup passes. -/
theorem c2_fatal_manifest (env : Faults) (fs : Fsys) :
    process_files env LoadRes.fileNotFound fs = ⟨fs, [Ev.jsonErrLog], false⟩ ∧
    (process_files env LoadRes.otherErr fs).crashed = true ∧
    (process_files env LoadRes.otherErr fs).trace = [] ∧
    ∀ entries, (process_files env (LoadRes.ok entries) fs).crashed = false ∧
      Ev.purgeRun OUTPUT_FOLDER ∈ (process_files env (LoadRes.ok entries) fs).trace ∧
      Ev.purgeRun COMBINED_FOLDER ∈ (process_files env (LoadRes.ok entries) fs).trace := by
  refine ⟨rfl, rfl, rfl, fun entries => ⟨rfl, ?_, ?_⟩⟩
  · simp [process_files, remove_backup_files]
  · simp [process_files, remove_backup_files]

/-- Counterexample to C2 as stated: a manifest that exists but cannot be
read or parsed aborts the run with no entries processed, but nothing is
logged (the source catches only `FileNotFoundError`), contradicting the
claim that a missing or unreadable manifest is logged. -/
theorem c2_counterexample :
    (process_files noFaults LoadRes.otherErr fsNil).crashed = true ∧
    (process_files noFaults LoadRes.otherErr fsNil).trace = [] ∧
    Ev.jsonErrLog ∉ (process_files noFaults LoadRes.otherErr fsNil).trace := by
  exact ⟨rfl, rfl, by decide⟩

/-- Witness for C2 (amended) at concrete inputs. -/
theorem c2_fatal_manifest_witness :
    process_files noFaults LoadRes.fileNotFound fsNil = ⟨fsNil, [Ev.jsonErrLog], false⟩ ∧
    (process_files noFaults (LoadRes.ok []) fsNil).crashed = false := by
  exact ⟨(c2_fatal_manifest noFaults fsNil).1, ((c2_fatal_manifest noFaults fsNil).2.2.2 []).1⟩

/-- Trace of either outcome of a fallible step. -/
def exTrace : Except (Fsys × List Ev) (Fsys × List Ev) → List Ev
  | Except.ok r => r.2
  | Except.error r => r.2

/-- Helper: the trace of one converter call, whatever the outcome. -/
theorem convert_trace (env : Faults) (fs : Fsys) (ip : FsPath) :
    (convert_webp_to_jpg env fs ip).2.1 =
      [Ev.convertOk ip (withSuffix ip (".jpg".toList))] ∨
    (convert_webp_to_jpg env fs ip).2.1 = [Ev.convertErrLog ip] := by
  unfold convert_webp_to_jpg
  simp only []
  split
  · split <;> simp
  · simp

/-- Helper: the trace of one compose call, whatever the outcome. -/
theorem combineFiles_trace (env : Faults) (fs : Fsys) (a b out : FsPath) :
    exTrace (combineFiles env fs a b out) = [Ev.combineTry a b] ∨
    exTrace (combineFiles env fs a b out) = [Ev.combineTry a b, Ev.combineOk out] := by
  unfold combineFiles
  split
  · split
    · split <;> simp [exTrace]
    · simp [exTrace]
  · simp [exTrace]

/-- Helper: the only `metaCall` event of an `update_metadata` trace
carries that call's `location` argument. -/
theorem update_metadata_metaCall (env : Faults) (fs : Fsys) (p : FsPath) (t : DT)
    (cap : Option (List Char)) (loc : Option Location) (p' : FsPath) (loc' : Option Location)
    (h : Ev.metaCall p' loc' ∈ (update_metadata env fs p t cap loc).2) : loc' = loc := by
  rw [update_metadata_trace] at h
  rcases List.mem_cons.mp h with h1 | h
  · cases h1
    rfl
  rcases List.mem_cons.mp h with h2 | h
  · rcases exifStep_ev env fs p t loc with he | he <;> rw [he] at h2 <;> exact Ev.noConfusion h2
  rcases List.mem_cons.mp h with h3 | h
  · rcases iptcStep_ev env (exifStep env fs p t loc).1 p cap with he | he <;> rw [he] at h3 <;>
      exact Ev.noConfusion h3
  · exact absurd h (List.not_mem_nil _)

/-- A trace whose every `metaCall` event carries no location. -/
def locFree (tr : List Ev) : Prop :=
  ∀ p loc, Ev.metaCall p loc ∈ tr → loc = none

theorem locFree_nil : locFree [] := by
  intro p loc h
  exact absurd h (List.not_mem_nil _)

theorem locFree_append {t1 t2 : List Ev} (h1 : locFree t1) (h2 : locFree t2) :
    locFree (t1 ++ t2) := by
  intro p loc h
  rcases List.mem_append.mp h with h | h
  · exact h1 p loc h
  · exact h2 p loc h

theorem locFree_cons {e : Ev} {t : List Ev} (he : ∀ p loc, e ≠ Ev.metaCall p loc)
    (h : locFree t) : locFree (e :: t) := by
  intro p loc hm
  rcases List.mem_cons.mp hm with hm | hm
  · exact absurd hm.symm (he p loc)
  · exact h p loc hm

theorem locFree_single (e : Ev) (he : ∀ p loc, e ≠ Ev.metaCall p loc) : locFree [e] :=
  locFree_cons he locFree_nil

theorem locFree_um (env : Faults) (fs : Fsys) (p : FsPath) (t : DT)
    (cap : Option (List Char)) : locFree (update_metadata env fs p t cap none).2 :=
  fun p' loc' h => update_metadata_metaCall env fs p t cap none p' loc' h

theorem locFree_convert (env : Faults) (fs : Fsys) (ip : FsPath) :
    locFree (convert_webp_to_jpg env fs ip).2.1 := by
  rcases convert_trace env fs ip with h | h <;> rw [h]
  · exact locFree_single _ (by simp)
  · exact locFree_single _ (by simp)

theorem locFree_combineFiles (env : Faults) (fs : Fsys) (a b out : FsPath) :
    locFree (exTrace (combineFiles env fs a b out)) := by
  rcases combineFiles_trace env fs a b out with h | h <;> rw [h]
  · exact locFree_single _ (by simp)
  · exact locFree_cons (by simp) (locFree_single _ (by simp))

theorem locFree_processImage (env : Faults) (fs : Fsys) (ip : FsPath) (ta : DT)
    (cap : Option (List Char)) : locFree (exTrace (processImage env fs ip ta cap)) := by
  unfold processImage
  by_cases hmem : ip ∈ fs.files
  · rw [if_pos hmem]
    simp only []
    by_cases hsuf : pathSuffix ip.name = ".webp".toList
    · rw [if_pos hsuf]
      rcases hc : convert_webp_to_jpg env fs ip with ⟨fs1, tr1, oc⟩
      have htr1 : locFree tr1 := by
        have h0 := locFree_convert env fs ip
        rw [hc] at h0
        exact h0
      cases oc with
      | some converted =>
        simp only []
        by_cases hmv : env.moveFault converted = true
        · rw [if_pos hmv]
          exact htr1
        · rw [if_neg hmv]
          simp only [exTrace]
          exact locFree_append (locFree_append htr1 (locFree_single _ (by simp)))
            (locFree_um env _ _ ta cap)
      | none =>
        simp only [exTrace]
        exact locFree_append htr1 (locFree_um env fs1 _ ta cap)
    · rw [if_neg hsuf]
      by_cases hcp : env.copyFault ip = true
      · rw [if_pos hcp]
        exact locFree_nil
      · rw [if_neg hcp]
        simp only [exTrace]
        exact locFree_cons (by simp) (locFree_um env _ _ ta cap)
  · rw [if_neg hmem]
    exact locFree_nil

theorem locFree_entryBody (env : Faults) (fs : Fsys) (e : Entry) :
    locFree (exTrace (entryBody env fs e)) := by
  rcases e with ⟨pp, sp, ts, cap, loc⟩
  unfold entryBody
  cases pp with
  | none => exact locFree_nil
  | some pp =>
  cases sp with
  | none => exact locFree_nil
  | some sp =>
  cases ts with
  | none => exact locFree_nil
  | some ts =>
  simp only []
  cases hpt : parseTakenAt ts with
  | none => exact locFree_nil
  | some ta =>
  simp only []
  rcases hpi : processImage env fs ⟨PHOTO_FOLDER, baseName pp⟩ ta cap with r1 | r1
  · have h0 := locFree_processImage env fs ⟨PHOTO_FOLDER, baseName pp⟩ ta cap
    rw [hpi] at h0
    exact h0
  · obtain ⟨fs1, tr1⟩ := r1
    have h1 : locFree tr1 := by
      have h0 := locFree_processImage env fs ⟨PHOTO_FOLDER, baseName pp⟩ ta cap
      rw [hpi] at h0
      exact h0
    simp only []
    rcases hpi2 : processImage env fs1 ⟨PHOTO_FOLDER, baseName sp⟩ ta cap with r2 | r2
    · have h2 : locFree r2.2 := by
        have h0 := locFree_processImage env fs1 ⟨PHOTO_FOLDER, baseName sp⟩ ta cap
        rw [hpi2] at h0
        exact h0
      exact locFree_append h1 h2
    · obtain ⟨fs2, tr2⟩ := r2
      have h2 : locFree tr2 := by
        have h0 := locFree_processImage env fs1 ⟨PHOTO_FOLDER, baseName sp⟩ ta cap
        rw [hpi2] at h0
        exact h0
      simp only []
      rcases hcf : combineFiles env fs2 ⟨PHOTO_FOLDER, baseName pp⟩ ⟨PHOTO_FOLDER, baseName sp⟩
          (get_unique_filename fs2.files
            ⟨COMBINED_FOLDER, strftimeCompact ta ++ "_combined.jpg".toList⟩) with r3 | r3
      · have h3 : locFree r3.2 := by
          have h0 := locFree_combineFiles env fs2 ⟨PHOTO_FOLDER, baseName pp⟩
            ⟨PHOTO_FOLDER, baseName sp⟩ (get_unique_filename fs2.files
              ⟨COMBINED_FOLDER, strftimeCompact ta ++ "_combined.jpg".toList⟩)
          rw [hcf] at h0
          exact h0
        exact locFree_append (locFree_append h1 h2) h3
      · obtain ⟨fs3, tr3⟩ := r3
        have h3 : locFree tr3 := by
          have h0 := locFree_combineFiles env fs2 ⟨PHOTO_FOLDER, baseName pp⟩
            ⟨PHOTO_FOLDER, baseName sp⟩ (get_unique_filename fs2.files
              ⟨COMBINED_FOLDER, strftimeCompact ta ++ "_combined.jpg".toList⟩)
          rw [hcf] at h0
          exact h0
        exact locFree_append (locFree_append (locFree_append h1 h2) h3)
          (locFree_um env _ _ ta cap)

theorem locFree_processEntry (env : Faults) (fs : Fsys) (i : Nat) (e : Entry) :
    locFree (processEntry env fs i e).2.1 := by
  unfold processEntry
  rcases hb : entryBody env fs e with r | r
  · have h0 := locFree_entryBody env fs e
    rw [hb] at h0
    exact locFree_append h0 (locFree_single _ (by simp))
  · have h0 := locFree_entryBody env fs e
    rw [hb] at h0
    exact locFree_append h0 (locFree_single _ (by simp))

theorem locFree_runEntries (env : Faults) :
    ∀ (es : List Entry) (fs : Fsys) (i : Nat), locFree (runEntries env fs i es).2 := by
  intro es
  induction es with
  | nil =>
    intro fs i
    exact locFree_nil
  | cons e es ih =>
    intro fs i
    exact locFree_append (locFree_processEntry env fs i e) (ih _ _)

/-- Helper: the GPS fields of every file are untouched by a metadata
write whose location argument is absent. -/
theorem update_metadata_gps_none (env : Faults) (fs : Fsys) (p : FsPath) (t : DT)
    (cap : Option (List Char)) (q : FsPath) :
    ((update_metadata env fs p t cap none).1.meta q).gps = (fs.meta q).gps := by
  have h1 : ∀ q' : FsPath, ((exifStep env fs p t none).1.meta q').gps = (fs.meta q').gps := by
    intro q'
    unfold exifStep
    split
    · by_cases hq : q' = p
      · subst hq
        simp [Function.update]
      · simp [Function.update, hq]
    · rfl
  have h2 : ∀ (fs' : Fsys) (q' : FsPath),
      ((iptcStep env fs' p cap).1.meta q').gps = (fs'.meta q').gps := by
    intro fs' q'
    unfold iptcStep
    split
    · by_cases hq : q' = p
      · subst hq
        cases cap <;> simp [Function.update]
      · cases cap <;> simp [Function.update, hq]
    · rfl
  calc ((update_metadata env fs p t cap none).1.meta q).gps
      = ((iptcStep env (exifStep env fs p t none).1 p cap).1.meta q).gps := rfl
    _ = ((exifStep env fs p t none).1.meta q).gps := h2 _ q
    _ = (fs.meta q).gps := h1 q

/-- Helper: the entry body never reads the entry's location field. -/
theorem entryBody_location_invariant (env : Faults) (fs : Fsys) (e : Entry) (l : Option Location) :
    entryBody env fs { e with location := l } = entryBody env fs e := by
  cases e
  rfl

theorem runEntries_location_invariant (env : Faults) :
    ∀ (es : List Entry) (fs : Fsys) (i : Nat) (l : Option Location),
    runEntries env fs i (es.map (fun e => { e with location := l })) = runEntries env fs i es := by
  intro es
  induction es with
  | nil =>
    intro fs i l
    rfl
  | cons e es ih =>
    intro fs i l
    simp only [List.map_cons, runEntries]
    rw [show processEntry env fs i { e with location := l } = processEntry env fs i e from by
      unfold processEntry
      rw [entryBody_location_invariant]]
    rw [ih]

/-- Claim C9: the driver never passes the manifest entry's location to
the metadata writer — every `metaCall` of any run carries no location, a
run's outcome is unchanged when every entry's location is replaced, and a
location-free metadata write never changes any file's GPS fields. -/
theorem c9_location_unused (env : Faults) (entries : List Entry) (fs : Fsys) :
    (∀ p loc, Ev.metaCall p loc ∈ (process_files env (LoadRes.ok entries) fs).trace →
      loc = none) ∧
    (∀ l, process_files env (LoadRes.ok (entries.map (fun e => { e with location := l }))) fs =
      process_files env (LoadRes.ok entries) fs) ∧
    (∀ (fs' : Fsys) (p : FsPath) (t : DT) (cap : Option (List Char)) (q : FsPath),
      ((update_metadata env fs' p t cap none).1.meta q).gps = (fs'.meta q).gps) := by
  refine ⟨?_, ?_, fun fs' p t cap q => update_metadata_gps_none env fs' p t cap q⟩
  · intro p loc h
    have htr : locFree (process_files env (LoadRes.ok entries) fs).trace := by
      refine locFree_append (locFree_append (locFree_runEntries env entries fs 0)
        (locFree_single _ (by simp))) (locFree_single _ (by simp))
    exact htr p loc h
  · intro l
    unfold process_files
    simp only []
    rw [runEntries_location_invariant]

/-- An entry carrying a manifest location, whose primary file is missing
and whose secondary file exists. -/
def entrySec : Entry :=
  ⟨some ("missing.jpg".toList), some ("b.jpg".toList),
    some ("2021-05-04T03:02:01.000Z".toList), none, some ⟨7, 9⟩⟩

/-- The secondary source file of `entrySec`. -/
def bSample : FsPath := ⟨PHOTO_FOLDER, "b.jpg".toList⟩

/-- A filesystem holding just that secondary file. -/
def fsSec : Fsys := ⟨{bSample}, fun _ => emptyMeta⟩

/-- Witness for C9 on a concrete run whose manifest entry carries a
location: the metadata call observed in the trace carries none, replacing
the location changes nothing, and a location-free write preserves GPS. -/
theorem c9_location_unused_witness :
    ((none : Option Location) = none) ∧
    process_files noFaults
      (LoadRes.ok ([entrySec].map (fun e => { e with location := some ⟨1, 2⟩ }))) fsSec =
      process_files noFaults (LoadRes.ok [entrySec]) fsSec ∧
    ((update_metadata noFaults fsNil pWitness ⟨2021, 5, 4, 3, 2, 1, 0⟩ none none).1.meta
      pWitness).gps = (fsNil.meta pWitness).gps := by
  refine ⟨?_, (c9_location_unused noFaults [entrySec] fsSec).2.1 (some ⟨1, 2⟩),
    (c9_location_unused noFaults [] fsNil).2.2 fsNil pWitness ⟨2021, 5, 4, 3, 2, 1, 0⟩
      none pWitness⟩
  exact (c9_location_unused noFaults [entrySec] fsSec).1
    ⟨OUTPUT_FOLDER, "b.jpg".toList⟩ none (by decide)

theorem candAt_parent (path : FsPath) (k : Nat) : (candAt path k).parent = path.parent := by
  cases k <;> rfl

theorem get_unique_filename_parent (fs : Finset FsPath) (path : FsPath) :
    (get_unique_filename fs path).parent = path.parent := by
  obtain ⟨m, h1, _, _⟩ := get_unique_filename_spec fs path
  rw [h1, candAt_parent]

/-- Helper: a metadata write can only add the `~` backup of the written
file to the filesystem. -/
theorem update_metadata_files (env : Faults) (fs : Fsys) (p : FsPath) (t : DT)
    (cap : Option (List Char)) (loc : Option Location) :
    (update_metadata env fs p t cap loc).1.files = fs.files ∨
    (update_metadata env fs p t cap loc).1.files = insert (backupPath p) fs.files := by
  have h1 := exifStep_files env fs p t loc
  have h2 : (update_metadata env fs p t cap loc).1 =
      (iptcStep env (exifStep env fs p t loc).1 p cap).1 := rfl
  rw [h2]
  unfold iptcStep
  split
  · right
    rw [h1]
  · left
    exact h1

/-- Helper: a missing source image is silently skipped. -/
theorem processImage_skip (env : Faults) (fs : Fsys) (ip : FsPath) (ta : DT)
    (cap : Option (List Char)) (h : ip ∉ fs.files) :
    processImage env fs ip ta cap = Except.ok (fs, []) := by
  unfold processImage
  rw [if_neg h]

/-- Helper: the non-`.webp` branch of the image loop, when the copy
succeeds. -/
theorem processImage_copy (env : Faults) (fs : Fsys) (ip : FsPath) (ta : DT)
    (cap : Option (List Char)) (hmem : ip ∈ fs.files)
    (hsuf : pathSuffix ip.name ≠ ".webp".toList) (hcf : env.copyFault ip = false) :
    processImage env fs ip ta cap =
      Except.ok ((update_metadata env
          ⟨insert (get_unique_filename fs.files ⟨OUTPUT_FOLDER, ip.name⟩) fs.files,
            Function.update fs.meta (get_unique_filename fs.files ⟨OUTPUT_FOLDER, ip.name⟩)
              (fs.meta ip)⟩
          (get_unique_filename fs.files ⟨OUTPUT_FOLDER, ip.name⟩) ta cap none).1,
        Ev.copyOp ip (get_unique_filename fs.files ⟨OUTPUT_FOLDER, ip.name⟩) ::
          (update_metadata env
            ⟨insert (get_unique_filename fs.files ⟨OUTPUT_FOLDER, ip.name⟩) fs.files,
              Function.update fs.meta (get_unique_filename fs.files ⟨OUTPUT_FOLDER, ip.name⟩)
                (fs.meta ip)⟩
            (get_unique_filename fs.files ⟨OUTPUT_FOLDER, ip.name⟩) ta cap none).2) := by
  unfold processImage
  rw [if_pos hmem]
  simp only []
  rw [if_neg hsuf, if_neg (by simp [hcf])]

/-- Helper: the `.webp` branch of the image loop when the conversion
fails — nothing is moved, and the metadata writer still runs on the
(never created) destination path. -/
theorem processImage_webp_fail (env : Faults) (fs : Fsys) (ip : FsPath) (ta : DT)
    (cap : Option (List Char)) (fs' : Fsys) (tr' : List Ev)
    (hmem : ip ∈ fs.files) (hsuf : pathSuffix ip.name = ".webp".toList)
    (hconv : convert_webp_to_jpg env fs ip = (fs', tr', none)) :
    processImage env fs ip ta cap =
      Except.ok ((update_metadata env fs'
          (get_unique_filename fs.files ⟨OUTPUT_FOLDER, ip.name⟩) ta cap none).1,
        tr' ++ (update_metadata env fs'
          (get_unique_filename fs.files ⟨OUTPUT_FOLDER, ip.name⟩) ta cap none).2) := by
  unfold processImage
  rw [if_pos hmem]
  simp only []
  rw [if_pos hsuf, hconv]

/-- Helper: an undecodable source makes the converter fail with the
filesystem untouched. -/
theorem convert_open_fault (env : Faults) (fs : Fsys) (ip : FsPath)
    (h : env.pilOpenFault ip = true) :
    convert_webp_to_jpg env fs ip = (fs, [Ev.convertErrLog ip], none) := by
  unfold convert_webp_to_jpg
  rw [if_neg (by simp [h])]

/-- Helper: the compose step raises as soon as the primary cannot be
opened. -/
theorem combineFiles_primary_error (env : Faults) (fs : Fsys) (a b out : FsPath)
    (h : ¬(a ∈ fs.files ∧ env.pilOpenFault a = false)) :
    combineFiles env fs a b out = Except.error (fs, [Ev.combineTry a b]) := by
  unfold combineFiles
  rw [if_neg h]

/-- Claim C8: an entry whose primary source file does not exist is not
treated as an error by the image loop — no copy, conversion or
conversion-error log concerns the primary and no destination is created
for it; the existing secondary is still copied to its unique destination
and stamped; the combined step is still attempted on the two original
source paths and fails at the per-entry boundary, whose error marker
closes the entry without aborting the batch. -/
theorem c8_missing_primary (env : Faults) (fs : Fsys) (i : Nat)
    (pp sp ts : List Char) (cap : Option (List Char)) (loc : Option Location) (taken_at : DT)
    (hparse : parseTakenAt ts = some taken_at)
    (hpm : (⟨PHOTO_FOLDER, baseName pp⟩ : FsPath) ∉ fs.files)
    (hsm : (⟨PHOTO_FOLDER, baseName sp⟩ : FsPath) ∈ fs.files)
    (hsw : pathSuffix (baseName sp) ≠ ".webp".toList)
    (hcf : env.copyFault ⟨PHOTO_FOLDER, baseName sp⟩ = false) :
    (∀ d, Ev.copyOp ⟨PHOTO_FOLDER, baseName pp⟩ d ∉
      (processEntry env fs i ⟨some pp, some sp, some ts, cap, loc⟩).2.1) ∧
    (∀ d, Ev.convertOk ⟨PHOTO_FOLDER, baseName pp⟩ d ∉
      (processEntry env fs i ⟨some pp, some sp, some ts, cap, loc⟩).2.1) ∧
    Ev.convertErrLog ⟨PHOTO_FOLDER, baseName pp⟩ ∉
      (processEntry env fs i ⟨some pp, some sp, some ts, cap, loc⟩).2.1 ∧
    Ev.copyOp ⟨PHOTO_FOLDER, baseName sp⟩
        (get_unique_filename fs.files ⟨OUTPUT_FOLDER, baseName sp⟩) ∈
      (processEntry env fs i ⟨some pp, some sp, some ts, cap, loc⟩).2.1 ∧
    Ev.metaCall (get_unique_filename fs.files ⟨OUTPUT_FOLDER, baseName sp⟩) none ∈
      (processEntry env fs i ⟨some pp, some sp, some ts, cap, loc⟩).2.1 ∧
    Ev.combineTry ⟨PHOTO_FOLDER, baseName pp⟩ ⟨PHOTO_FOLDER, baseName sp⟩ ∈
      (processEntry env fs i ⟨some pp, some sp, some ts, cap, loc⟩).2.1 ∧
    (processEntry env fs i ⟨some pp, some sp, some ts, cap, loc⟩).2.2 = true := by
  have hpiP := processImage_skip env fs ⟨PHOTO_FOLDER, baseName pp⟩ taken_at cap hpm
  have hpiS := processImage_copy env fs ⟨PHOTO_FOLDER, baseName sp⟩ taken_at cap hsm hsw hcf
  have hdestparent : (get_unique_filename fs.files ⟨OUTPUT_FOLDER, baseName sp⟩).parent =
      OUTPUT_FOLDER := get_unique_filename_parent fs.files _
  have hpneq1 : (⟨PHOTO_FOLDER, baseName pp⟩ : FsPath) ≠
      get_unique_filename fs.files ⟨OUTPUT_FOLDER, baseName sp⟩ := by
    intro h
    have hp := congrArg FsPath.parent h
    rw [hdestparent] at hp
    have hp' : PHOTO_FOLDER = OUTPUT_FOLDER := hp
    exact absurd hp' (by decide)
  have hpneq2 : (⟨PHOTO_FOLDER, baseName pp⟩ : FsPath) ≠
      backupPath (get_unique_filename fs.files ⟨OUTPUT_FOLDER, baseName sp⟩) := by
    intro h
    have hp := congrArg FsPath.parent h
    rw [show (backupPath (get_unique_filename fs.files ⟨OUTPUT_FOLDER, baseName sp⟩)).parent =
        (get_unique_filename fs.files ⟨OUTPUT_FOLDER, baseName sp⟩).parent from rfl,
      hdestparent] at hp
    have hp' : PHOTO_FOLDER = OUTPUT_FOLDER := hp
    exact absurd hp' (by decide)
  have hpneqS : (⟨PHOTO_FOLDER, baseName pp⟩ : FsPath) ≠ ⟨PHOTO_FOLDER, baseName sp⟩ := by
    intro h
    rw [h] at hpm
    exact hpm hsm
  have hpm2 : (⟨PHOTO_FOLDER, baseName pp⟩ : FsPath) ∉
      (update_metadata env
        ⟨insert (get_unique_filename fs.files ⟨OUTPUT_FOLDER, baseName sp⟩) fs.files,
          Function.update fs.meta (get_unique_filename fs.files ⟨OUTPUT_FOLDER, baseName sp⟩)
            (fs.meta ⟨PHOTO_FOLDER, baseName sp⟩)⟩
        (get_unique_filename fs.files ⟨OUTPUT_FOLDER, baseName sp⟩) taken_at cap none).1.files := by
    rcases update_metadata_files env
        ⟨insert (get_unique_filename fs.files ⟨OUTPUT_FOLDER, baseName sp⟩) fs.files,
          Function.update fs.meta (get_unique_filename fs.files ⟨OUTPUT_FOLDER, baseName sp⟩)
            (fs.meta ⟨PHOTO_FOLDER, baseName sp⟩)⟩
        (get_unique_filename fs.files ⟨OUTPUT_FOLDER, baseName sp⟩) taken_at cap none with
      hf | hf <;> rw [hf]
    · intro hmem2
      rcases Finset.mem_insert.mp hmem2 with h | h
      · exact hpneq1 h
      · exact hpm h
    · intro hmem2
      rcases Finset.mem_insert.mp hmem2 with h | h
      · exact hpneq2 h
      rcases Finset.mem_insert.mp h with h | h
      · exact hpneq1 h
      · exact hpm h
  have hcomb := combineFiles_primary_error env
    ((update_metadata env
      ⟨insert (get_unique_filename fs.files ⟨OUTPUT_FOLDER, baseName sp⟩) fs.files,
        Function.update fs.meta (get_unique_filename fs.files ⟨OUTPUT_FOLDER, baseName sp⟩)
          (fs.meta ⟨PHOTO_FOLDER, baseName sp⟩)⟩
      (get_unique_filename fs.files ⟨OUTPUT_FOLDER, baseName sp⟩) taken_at cap none).1)
    ⟨PHOTO_FOLDER, baseName pp⟩ ⟨PHOTO_FOLDER, baseName sp⟩
    (get_unique_filename
      ((update_metadata env
        ⟨insert (get_unique_filename fs.files ⟨OUTPUT_FOLDER, baseName sp⟩) fs.files,
          Function.update fs.meta (get_unique_filename fs.files ⟨OUTPUT_FOLDER, baseName sp⟩)
            (fs.meta ⟨PHOTO_FOLDER, baseName sp⟩)⟩
        (get_unique_filename fs.files ⟨OUTPUT_FOLDER, baseName sp⟩) taken_at cap none).1.files)
      ⟨COMBINED_FOLDER, strftimeCompact taken_at ++ "_combined.jpg".toList⟩)
    (fun hc => hpm2 hc.1)
  have hE : processEntry env fs i ⟨some pp, some sp, some ts, cap, loc⟩ =
      ((update_metadata env
        ⟨insert (get_unique_filename fs.files ⟨OUTPUT_FOLDER, baseName sp⟩) fs.files,
          Function.update fs.meta (get_unique_filename fs.files ⟨OUTPUT_FOLDER, baseName sp⟩)
            (fs.meta ⟨PHOTO_FOLDER, baseName sp⟩)⟩
        (get_unique_filename fs.files ⟨OUTPUT_FOLDER, baseName sp⟩) taken_at cap none).1,
        (([] ++ (Ev.copyOp ⟨PHOTO_FOLDER, baseName sp⟩
            (get_unique_filename fs.files ⟨OUTPUT_FOLDER, baseName sp⟩) ::
          (update_metadata env
            ⟨insert (get_unique_filename fs.files ⟨OUTPUT_FOLDER, baseName sp⟩) fs.files,
              Function.update fs.meta
                (get_unique_filename fs.files ⟨OUTPUT_FOLDER, baseName sp⟩)
                (fs.meta ⟨PHOTO_FOLDER, baseName sp⟩)⟩
            (get_unique_filename fs.files ⟨OUTPUT_FOLDER, baseName sp⟩) taken_at cap none).2) ++
          [Ev.combineTry ⟨PHOTO_FOLDER, baseName pp⟩ ⟨PHOTO_FOLDER, baseName sp⟩]) ++
          [Ev.entryDone i true]), true) := by
    unfold processEntry entryBody
    simp only []
    rw [hparse]
    simp only []
    rw [hpiP]
    simp only []
    rw [hpiS]
    simp only []
    rw [hcomb]
  rcases exifStep_ev env
      ⟨insert (get_unique_filename fs.files ⟨OUTPUT_FOLDER, baseName sp⟩) fs.files,
        Function.update fs.meta (get_unique_filename fs.files ⟨OUTPUT_FOLDER, baseName sp⟩)
          (fs.meta ⟨PHOTO_FOLDER, baseName sp⟩)⟩
      (get_unique_filename fs.files ⟨OUTPUT_FOLDER, baseName sp⟩) taken_at none with he1 | he1 <;>
    rcases iptcStep_ev env
        (exifStep env
          ⟨insert (get_unique_filename fs.files ⟨OUTPUT_FOLDER, baseName sp⟩) fs.files,
            Function.update fs.meta (get_unique_filename fs.files ⟨OUTPUT_FOLDER, baseName sp⟩)
              (fs.meta ⟨PHOTO_FOLDER, baseName sp⟩)⟩
          (get_unique_filename fs.files ⟨OUTPUT_FOLDER, baseName sp⟩) taken_at none).1
        (get_unique_filename fs.files ⟨OUTPUT_FOLDER, baseName sp⟩) cap with he2 | he2 <;>
    refine ⟨?_, ?_, ?_, ?_, ?_, ?_, ?_⟩ <;>
    simp only [hE, update_metadata_trace, he1, he2] <;>
    simp [hpneqS, hpneq1]

/-- Witness for C8 on a concrete entry whose primary file is missing and
whose secondary `b.jpg` exists: the secondary is copied, the combined
step is attempted on the original paths, and the entry ends in its
(caught) error. -/
theorem c8_missing_primary_witness :
    Ev.copyOp ⟨PHOTO_FOLDER, baseName ("b.jpg".toList)⟩
        (get_unique_filename fsSec.files ⟨OUTPUT_FOLDER, baseName ("b.jpg".toList)⟩) ∈
      (processEntry noFaults fsSec 0 ⟨some ("missing.jpg".toList), some ("b.jpg".toList),
        some ("2021-05-04T03:02:01.000Z".toList), none, some ⟨7, 9⟩⟩).2.1 ∧
    Ev.combineTry ⟨PHOTO_FOLDER, baseName ("missing.jpg".toList)⟩
        ⟨PHOTO_FOLDER, baseName ("b.jpg".toList)⟩ ∈
      (processEntry noFaults fsSec 0 ⟨some ("missing.jpg".toList), some ("b.jpg".toList),
        some ("2021-05-04T03:02:01.000Z".toList), none, some ⟨7, 9⟩⟩).2.1 ∧
    (processEntry noFaults fsSec 0 ⟨some ("missing.jpg".toList), some ("b.jpg".toList),
      some ("2021-05-04T03:02:01.000Z".toList), none, some ⟨7, 9⟩⟩).2.2 = true := by
  refine ⟨(c8_missing_primary noFaults fsSec 0 ("missing.jpg".toList) ("b.jpg".toList)
      ("2021-05-04T03:02:01.000Z".toList) none (some ⟨7, 9⟩) ⟨2021, 5, 4, 3, 2, 1, 0⟩
      (by decide) (by decide) (by decide) (by decide) rfl).2.2.2.1,
    (c8_missing_primary noFaults fsSec 0 ("missing.jpg".toList) ("b.jpg".toList)
      ("2021-05-04T03:02:01.000Z".toList) none (some ⟨7, 9⟩) ⟨2021, 5, 4, 3, 2, 1, 0⟩
      (by decide) (by decide) (by decide) (by decide) rfl).2.2.2.2.2.1,
    (c8_missing_primary noFaults fsSec 0 ("missing.jpg".toList) ("b.jpg".toList)
      ("2021-05-04T03:02:01.000Z".toList) none (some ⟨7, 9⟩) ⟨2021, 5, 4, 3, 2, 1, 0⟩
      (by decide) (by decide) (by decide) (by decide) rfl).2.2.2.2.2.2⟩

/-- Claim C10: when a `.webp` primary exists but its conversion fails,
nothing is moved to the destination, yet the metadata writer is still
invoked on the never-created unique destination path, where both of its
writes fail and are logged; processing still reaches the combined step,
and the entry ends at its (caught) boundary. -/
theorem c10_failed_conversion (env : Faults) (fs : Fsys) (i : Nat)
    (pp sp ts : List Char) (cap : Option (List Char)) (loc : Option Location) (taken_at : DT)
    (hparse : parseTakenAt ts = some taken_at)
    (hpm : (⟨PHOTO_FOLDER, baseName pp⟩ : FsPath) ∈ fs.files)
    (hpw : pathSuffix (baseName pp) = ".webp".toList)
    (hof : env.pilOpenFault ⟨PHOTO_FOLDER, baseName pp⟩ = true)
    (hsm : (⟨PHOTO_FOLDER, baseName sp⟩ : FsPath) ∉ fs.files) :
    (∀ a d, Ev.moveOp a d ∉
      (processEntry env fs i ⟨some pp, some sp, some ts, cap, loc⟩).2.1) ∧
    Ev.convertErrLog ⟨PHOTO_FOLDER, baseName pp⟩ ∈
      (processEntry env fs i ⟨some pp, some sp, some ts, cap, loc⟩).2.1 ∧
    Ev.metaCall (get_unique_filename fs.files ⟨OUTPUT_FOLDER, baseName pp⟩) none ∈
      (processEntry env fs i ⟨some pp, some sp, some ts, cap, loc⟩).2.1 ∧
    Ev.exifErrLog (get_unique_filename fs.files ⟨OUTPUT_FOLDER, baseName pp⟩) ∈
      (processEntry env fs i ⟨some pp, some sp, some ts, cap, loc⟩).2.1 ∧
    Ev.iptcErrLog (get_unique_filename fs.files ⟨OUTPUT_FOLDER, baseName pp⟩) ∈
      (processEntry env fs i ⟨some pp, some sp, some ts, cap, loc⟩).2.1 ∧
    Ev.combineTry ⟨PHOTO_FOLDER, baseName pp⟩ ⟨PHOTO_FOLDER, baseName sp⟩ ∈
      (processEntry env fs i ⟨some pp, some sp, some ts, cap, loc⟩).2.1 ∧
    (processEntry env fs i ⟨some pp, some sp, some ts, cap, loc⟩).2.2 = true := by
  have hconv := convert_open_fault env fs ⟨PHOTO_FOLDER, baseName pp⟩ hof
  have hpiP := processImage_webp_fail env fs ⟨PHOTO_FOLDER, baseName pp⟩ taken_at cap fs
    [Ev.convertErrLog ⟨PHOTO_FOLDER, baseName pp⟩] hpm hpw hconv
  simp only [] at hpiP
  have hnp : get_unique_filename fs.files ⟨OUTPUT_FOLDER, baseName pp⟩ ∉ fs.files :=
    get_unique_filename_not_mem fs.files _
  have hum := update_metadata_not_mem env fs
    (get_unique_filename fs.files ⟨OUTPUT_FOLDER, baseName pp⟩) taken_at cap none hnp
  rw [hum] at hpiP
  simp only [] at hpiP
  have hpiS := processImage_skip env fs ⟨PHOTO_FOLDER, baseName sp⟩ taken_at cap hsm
  have hcomb := combineFiles_primary_error env fs ⟨PHOTO_FOLDER, baseName pp⟩
    ⟨PHOTO_FOLDER, baseName sp⟩
    (get_unique_filename fs.files
      ⟨COMBINED_FOLDER, strftimeCompact taken_at ++ "_combined.jpg".toList⟩)
    (fun hc => absurd hc.2 (by simp [hof]))
  refine ⟨?_, ?_, ?_, ?_, ?_, ?_, ?_⟩ <;>
    (unfold processEntry entryBody
     simp only []
     rw [hparse]
     simp only []
     rw [hpiP]
     simp only []
     rw [hpiS]
     simp only []
     rw [hcomb]
     try simp)

/-- Witness for C10 with the `.webp` source `a.webp` present but
undecodable: no move happens, the metadata writer fails twice on the
missing destination, and the combined step is still attempted. -/
theorem c10_failed_conversion_witness :
    Ev.convertErrLog ⟨PHOTO_FOLDER, baseName ("a.webp".toList)⟩ ∈
      (processEntry envOpenFault fsWebp 0 ⟨some ("a.webp".toList), some ("b.jpg".toList),
        some ("2021-05-04T03:02:01.000Z".toList), none, none⟩).2.1 ∧
    Ev.iptcErrLog (get_unique_filename fsWebp.files ⟨OUTPUT_FOLDER, baseName ("a.webp".toList)⟩) ∈
      (processEntry envOpenFault fsWebp 0 ⟨some ("a.webp".toList), some ("b.jpg".toList),
        some ("2021-05-04T03:02:01.000Z".toList), none, none⟩).2.1 ∧
    Ev.combineTry ⟨PHOTO_FOLDER, baseName ("a.webp".toList)⟩
        ⟨PHOTO_FOLDER, baseName ("b.jpg".toList)⟩ ∈
      (processEntry envOpenFault fsWebp 0 ⟨some ("a.webp".toList), some ("b.jpg".toList),
        some ("2021-05-04T03:02:01.000Z".toList), none, none⟩).2.1 := by
  refine ⟨(c10_failed_conversion envOpenFault fsWebp 0 ("a.webp".toList) ("b.jpg".toList)
      ("2021-05-04T03:02:01.000Z".toList) none none ⟨2021, 5, 4, 3, 2, 1, 0⟩
      (by decide) (by decide) (by decide) rfl (by decide)).2.1,
    (c10_failed_conversion envOpenFault fsWebp 0 ("a.webp".toList) ("b.jpg".toList)
      ("2021-05-04T03:02:01.000Z".toList) none none ⟨2021, 5, 4, 3, 2, 1, 0⟩
      (by decide) (by decide) (by decide) rfl (by decide)).2.2.2.2.1,
    (c10_failed_conversion envOpenFault fsWebp 0 ("a.webp".toList) ("b.jpg".toList)
      ("2021-05-04T03:02:01.000Z".toList) none none ⟨2021, 5, 4, 3, 2, 1, 0⟩
      (by decide) (by decide) (by decide) rfl (by decide)).2.2.2.2.2.1⟩

end Recap
